import Mathlib

/-!
Shallow embedding of the remote annotation task pipeline of
`scripts/tss.py` and of the dispatch / UI-refresh logic of
`scripts/controlnet_ui/controlnet_ui_group.py`.

Modelling conventions:
* A Python `requests` call either raises a transport exception
  (`Except.error ()` in the oracle type) or yields a response.  A response
  is modelled by `HttpResp α`: `ok` is the truthiness of the
  `requests.Response` object (`status_code < 400`); `body` is the outcome
  of `resp.json()` plus the mandatory envelope keys: `none` means that
  parsing the body (or indexing the required keys) raises, `some (code, d)`
  gives the envelope `{code, data}`.
* Exceptions that propagate through the Python code are modelled by
  `Except PyErr`.
* Python `dict`s with string keys are modelled by insertion-ordered
  association lists with unique keys (`PyDict`), with `pyInsert` giving
  the overwrite-in-place / append-if-new semantics of `d[k] = v`.
-/

namespace Tss

/-- Exceptions that can propagate out of the functions of `scripts/tss.py`:
a `requests` transport exception, a body/JSON shape error raised while
reading `resp.json()` or its envelope keys, and the two explicit
`raise Exception(...)` sites (`'request tss failed'` in
`request_mudules`/`request_models`, `'upload image file failed'` in
`run_annotator`). -/
inductive PyErr where
  | net
  | jsonDecode
  | requestFailed
  | uploadFailed
  deriving DecidableEq, Repr

/-- An HTTP response as observed by the code: `ok` is the truthiness of the
`requests.Response` (`if resp:` — true iff `status_code < 400`); `body` is
`none` when `resp.json()` (or reading the envelope keys `code`/`data`)
raises, otherwise `some (code, data)`. -/
structure HttpResp (α : Type) where
  ok : Bool
  body : Option (Int × α)
  deriving DecidableEq, Repr

/-- Outcome of one `requests` call: `Except.error ()` is a raised transport
exception (connect failure / per-request timeout), `Except.ok r` a
received response. -/
abbrev HttpOutcome (α : Type) := Except Unit (HttpResp α)

/-- One entry `{real_value, display_value}` of a catalog category list
(`data['items'][category]`). -/
structure CatItem where
  display_value : String
  real_value : Option String
  deriving DecidableEq, Repr

/-- The catalog payload `data` of a category response, holding the list
`data['items'][c]` for the one requested category `c`. -/
structure CatData where
  items : List CatItem
  deriving DecidableEq, Repr

/-- The module-level `cache` dict of `tss.py`, restricted to the two keys
the catalog functions use (`cache['mudules']`, `cache['models']`).  `none`
models an absent key (`cache.get(k)` returning `None`). -/
structure Cache where
  mudules : Option CatData := none
  models : Option CatData := none
  deriving DecidableEq, Repr

/-- The `opts` configuration attributes read by `tss.py`: `tu_token`
models the structured credential attribute `"tu-token"` (absent = `none`),
`xz_ext_enable` the remote-enable flag (with `getattr` default `False`
folded in). -/
structure Credential where
  token : String
  expire : Int
  deriving DecidableEq, Repr

structure Opts where
  tu_token : Option Credential := none
  xz_ext_enable : Bool := false
  deriving DecidableEq, Repr

/-- The `cmd_opts` attribute read by `tss.enable`. -/
structure CmdOpts where
  worker : Bool
  deriving DecidableEq, Repr

/-- `tss.enable`: `getattr(opts, "xz_ext_enable", False) and not cmd_opts.worker`. -/
def enable (o : Opts) (c : CmdOpts) : Bool :=
  o.xz_ext_enable && !c.worker

/-- `tss.get_tushuashua_token`, with `now` standing for `time.time()`:
returns `''` when the `"tu-token"` attribute is absent or when
`time.time() > t['expire'] - 60`; otherwise returns the stored token,
prefixing the `Bearer` scheme when it is not already present.  The
function is pure apart from reading `opts` and the clock: it performs no
network call and raises nothing. -/
def get_tushuashua_token (o : Opts) (now : Int) : String :=
  match o.tu_token with
  | some t =>
    if now > t.expire - 60 then ""
    else
      let token := t.token
      if token.startsWith "Bearer" then token else "Bearer " ++ token
  | none => ""

/-- `tss.request_tss`: issues a GET (outcome `out`); a transport exception
propagates; on a truthy response the body is parsed (a parse failure
raises); `json_d['data']` is returned when `json_d['code'] == 200`, and
the implicit `None` is returned otherwise (falsy response or non-200
envelope code). -/
def request_tss {α : Type} (out : HttpOutcome α) : Except PyErr (Option α) :=
  match out with
  | .error _ => .error .net
  | .ok r =>
    if r.ok then
      match r.body with
      | none => .error .jsonDecode
      | some (code, data) => if code = 200 then .ok (some data) else .ok none
    else .ok none

/-- `tss.request_mudules` (category 3).  The envelope `data` value is
modelled as `Option CatData`, `none` standing for a falsy `data` (so the
Python `not data` test is `Option.join` of the `request_tss` result being
`none`).  On truthy data the cache key `'mudules'` is overwritten; on
falsy data the cached value is used; if neither exists,
`Exception('request tss failed')` is raised.  Returns the list
`[item['real_value'] for item in data['items']['3']]` together with the
updated cache. -/
def request_mudules (c : Cache) (out : HttpOutcome (Option CatData)) :
    Except PyErr (List (Option String) × Cache) :=
  match request_tss out with
  | .error e => .error e
  | .ok x =>
    match x.join with
    | some d => .ok (d.items.map (·.real_value), { c with mudules := some d })
    | none =>
      match c.mudules with
      | some d => .ok (d.items.map (·.real_value), c)
      | none => .error .requestFailed

/-- Insertion-ordered string-keyed Python dict. -/
abbrev PyDict := List (String × Option String)

/-- `d[k] = v` on a Python dict: overwrite in place when the key exists,
append last when it does not. -/
def pyInsert (d : PyDict) (k : String) (v : Option String) : PyDict :=
  match d with
  | [] => [(k, v)]
  | (k', v') :: rest =>
    if k' = k then (k', v) :: rest else (k', v') :: pyInsert rest k v

/-- `k in d` on a Python dict. -/
def pyHasKey (d : PyDict) (k : String) : Bool :=
  d.any (fun p => p.1 = k)

/-- `d.update(m)` on Python dicts: insert the entries of `m` in order. -/
def pyUpdate (d : PyDict) (m : PyDict) : PyDict :=
  m.foldl (fun acc p => pyInsert acc p.1 p.2) d

/-- The dict comprehension
`dict((item['display_value'], item['real_value']) for item in items)`
of `tss.request_models`. -/
def dictOfItems (items : List CatItem) : PyDict :=
  items.foldl (fun d it => pyInsert d it.display_value it.real_value) []

/-- `if '无' in d: del d['无']` of `tss.request_models` (on a unique-key
dict, `del` removes exactly the entry with that key). -/
def dropEmptySentinel (d : PyDict) : PyDict :=
  if pyHasKey d "无" then d.filter (fun p => p.1 ≠ "无") else d

/-- The model mapping built by `tss.request_models`: the dict
comprehension, then the `'无'` deletion, then `d.update({"None": None})`. -/
def buildModelDict (items : List CatItem) : PyDict :=
  pyInsert (dropEmptySentinel (dictOfItems items)) "None" none

/-- `tss.request_models` (category 4): same fetch/fallback/raise shape as
`request_mudules`, then the model mapping is built by `buildModelDict`. -/
def request_models (c : Cache) (out : HttpOutcome (Option CatData)) :
    Except PyErr (PyDict × Cache) :=
  match request_tss out with
  | .error e => .error e
  | .ok x =>
    match x.join with
    | some d => .ok (buildModelDict d.items, { c with models := some d })
    | none =>
      match c.models with
      | some d => .ok (buildModelDict d.items, c)
      | none => .error .requestFailed

/-- The `data` payload of one poll response
`GET /v1/img-tasks/{task_id}`: `status`, and the two optional result
lists (`res.get(...)` yields `none` for an absent or null key). -/
structure TaskData where
  status : Int
  hig_images : Option (List String) := none
  images : Option (List String) := none
  deriving DecidableEq, Repr

/-- What one iteration of the `waite_task` poll loop does with the GET
outcome: a transport exception or a body-parse failure raises
(`raiseNet`/`raiseJson`); a truthy response with envelope code 200 whose
`data['status']` is `10` or `-1` hits `return data` (`terminal`); every
other outcome — falsy response, non-200 envelope code, non-terminal
status — falls through to the next iteration (`next`). -/
inductive PollClass where
  | raiseNet
  | raiseJson
  | terminal (data : TaskData)
  | next
  deriving DecidableEq, Repr

def classifyPoll : HttpOutcome TaskData → PollClass
  | .error _ => .raiseNet
  | .ok r =>
    if r.ok then
      match r.body with
      | none => .raiseJson
      | some (code, data) =>
        if code = 200 then
          if data.status = 10 ∨ data.status = -1 then .terminal data
          else .next
        else .next
    else .next

/-- `tss.waite_task`.  `trace` lists the iterations of the
`while time.time() - start < timeout` loop: each entry carries the elapsed
time `time.time() - start` observed at the loop condition and the outcome
of that iteration's GET (issued after the `time.sleep(2)`).  An entry with
elapsed time `≥ timeout` exits the loop with the implicit `None`; since
every iteration sleeps at least 2 seconds, only finitely many iterations
occur and an exhausted trace likewise models loop exit.  The loop body is
`classifyPoll`: raising outcomes propagate, a terminal status returns the
payload, everything else continues the loop. -/
def waite_task (timeout : Int) : List (Int × HttpOutcome TaskData) →
    Except PyErr (Option TaskData)
  | [] => .ok none
  | (elapsed, out) :: rest =>
    if elapsed < timeout then
      match classifyPoll out with
      | .raiseNet => .error .net
      | .raiseJson => .error .jsonDecode
      | .terminal data => .ok (some data)
      | .next => waite_task timeout rest
    else .ok none

/-- Python truthiness used in
`images = res.get('hig_images') or res.get('images')`: the left value is
kept when it is a non-empty list, otherwise the right value is taken. -/
def pyOrList (a b : Option (List String)) : Option (List String) :=
  match a with
  | some l => if l.isEmpty then b else some l
  | none => b

/-- The artifact-list selection of `tss.run_annotator`:
`res.get('hig_images') or res.get('images')`. -/
def selected_images (res : TaskData) : Option (List String) :=
  pyOrList res.hig_images res.images

/-- The artifact-URL selection of `tss.run_annotator`:
`if images: image_url = images[0]`, `none` when no list is non-empty. -/
def selected_url (res : TaskData) : Option String :=
  match selected_images res with
  | some (u :: _) => some u
  | _ => none

/-- The `data` payload of the registration response `POST /v1/oss-files`:
a pre-signed `url` and the storage `oss_key`. -/
structure RegData where
  url : String
  oss_key : String
  deriving DecidableEq, Repr

/-- `tss.upload_image_data` for one image: `reg` is the outcome of the
registration POST, `put url` the outcome of the raw-bytes PUT to the
pre-signed `data['url']` (its `Bool` is the truthiness of `resp2`).  A
transport exception in either phase propagates; a falsy registration
response or non-200 envelope code falls through to the implicit `None`
(after `print(resp.text)`); a falsy PUT response likewise yields `None`
(after `print(resp2.text)`); only full success returns
`some data['oss_key']`. -/
def upload_image_data (reg : HttpOutcome RegData)
    (put : String → Except Unit Bool) : Except PyErr (Option String) :=
  match reg with
  | .error _ => .error .net
  | .ok r =>
    if r.ok then
      match r.body with
      | none => .error .jsonDecode
      | some (code, d) =>
        if code = 200 then
          match put d.url with
          | .error _ => .error .net
          | .ok ok2 => if ok2 then .ok (some d.oss_key) else .ok none
        else .ok none
    else .ok none

/-- Python truthiness of `image_key` / `mask_key` in
`if not image_key or not mask_key:`: truthy iff present and non-empty. -/
def pyTruthyKey (o : Option String) : Bool :=
  match o with
  | some s => !(s == "")
  | none => false

/-- The `data` payload of the job submission response
`POST /v1/img2img-tasks/cnet`. -/
structure SubmitData where
  task_id : String
  deriving DecidableEq, Repr

/-- `tss.run_annotator`.  `ik`/`mk` are the outcomes of the two
`upload_image_data` calls for `image['image']` and `image['mask']` (the
mask upload is not reached when the image upload raises); `submit` is the
outcome of the job submission POST; `trace` feeds `waite_task` (called
with its default `timeout=300`); `download url` is the outcome of the
artifact GET; `urlBase url` models
`os.path.basename(urlparse(image_url).path)` (external stdlib functions).
Returns the local file path `os.path.join('tmp', ...)` on full success and
the implicit `None` on every non-raising fall-through. -/
def run_annotator (ik mk : Except PyErr (Option String))
    (submit : HttpOutcome SubmitData)
    (trace : List (Int × HttpOutcome TaskData))
    (download : String → Except Unit Bool)
    (urlBase : String → String) : Except PyErr (Option String) :=
  match ik with
  | .error e => .error e
  | .ok iko =>
  match mk with
  | .error e => .error e
  | .ok mko =>
  if !pyTruthyKey iko || !pyTruthyKey mko then .error .uploadFailed
  else
    match submit with
    | .error _ => .error .net
    | .ok r =>
      if r.ok then
        match r.body with
        | none => .error .jsonDecode
        | some (code, _) =>
          if code = 200 then
            match waite_task 300 trace with
            | .error e => .error e
            | .ok none => .ok none
            | .ok (some res) =>
              match selected_url res with
              | none => .ok none
              | some url =>
                match download url with
                | .error _ => .error .net
                | .ok dok =>
                  if dok then .ok (some ("tmp/" ++ urlBase url)) else .ok none
          else .ok none
      else .ok none

end Tss

namespace CnetUI

/-- A value carried by a `gr.update(...)` field: the string `"None"`, an
integer literal of the source (`512`, `64`, `2048`, `1`), or a
configuration-supplied number of the abstract numeric type `ν` (the real
slider configs hold Python floats and are defined outside this
repository). -/
inductive GrVal (ν : Type) where
  | str (s : String)
  | int (n : Int)
  | flt (x : ν)
  deriving DecidableEq, Repr

/-- A `gr.update(...)` dictionary: only the keyword arguments that appear
at the call site are set. -/
structure GrUpdate (ν : Type) where
  label : Option String := none
  value : Option (GrVal ν) := none
  minimum : Option (GrVal ν) := none
  maximum : Option (GrVal ν) := none
  step : Option (GrVal ν) := none
  visible : Option Bool := none
  interactive : Option Bool := none
  deriving DecidableEq, Repr

/-- One entry of `preprocessor_sliders_config[module]` that is a dict
(`isinstance(slider_config, dict)`); `step` is `none` when the key
`'step'` is absent. -/
structure SliderCfgD (ν : Type) where
  name : String
  value : ν
  min : ν
  max : ν
  step : Option ν := none
  deriving DecidableEq, Repr

/-- One entry of a slider-config list: a dict entry or a non-dict entry
(the source checks `isinstance(slider_config, dict)`). -/
abbrev SliderCfg (ν : Type) := Option (SliderCfgD ν)

/-- The hidden, non-interactive filler update
`gr.update(visible=False, interactive=False)`. -/
def hiddenUpdate (ν : Type) : GrUpdate ν :=
  { visible := some false, interactive := some false }

/-- The slider/advanced part of `build_sliders` (everything before the
final model/refresh pair), for the already-resolved module name. -/
def build_sliders_grs {ν : Type} (cfg : String → Option (List (SliderCfg ν)))
    (flag_res : String) (module : String) (pp : Bool) : List (GrUpdate ν) :=
  match cfg module with
  | none =>
    [{ label := some flag_res, value := some (.int 512),
       minimum := some (.int 64), maximum := some (.int 2048),
       step := some (.int 1), visible := some (!pp),
       interactive := some (!pp) },
     hiddenUpdate ν, hiddenUpdate ν,
     { visible := some true }]
  | some cfgs =>
    let grs := cfgs.foldl (fun acc sc =>
      match sc with
      | some d =>
        let visible := if d.name = flag_res then !pp else true
        acc ++ [{ label := some d.name, value := some (.flt d.value),
                  minimum := some (.flt d.min), maximum := some (.flt d.max),
                  step := some (match d.step with
                                | some s => .flt s
                                | none => .int 1),
                  visible := some visible, interactive := some visible }]
      | none => acc ++ [hiddenUpdate ν]) []
    let grs := grs ++ List.replicate (3 - grs.length) (hiddenUpdate ν)
    grs ++ [{ visible := some true }]

/-- `build_sliders` of `register_build_sliders`
(`controlnet_ui_group.py`).  External inputs that live outside this
repository are passed as parameters: `bn` is
`global_state.get_module_basename`, `cfg` is
`preprocessor_sliders_config` (`none` = module not a key), `model_free`
is `model_free_preprocessors`, `flag_res` is
`flag_preprocessor_resolution`.  The returned updates go positionally to
`[processor_res, threshold_a, threshold_b, advanced, model,
refresh_models]`; the final two entries are the model dropdown and its
refresh button, set to `gr.update(visible=False, value="None")` /
`gr.update(visible=False)` when the resolved module is model-free and to
visible updates otherwise.  `build_sliders` does not read the current
model selection at all. -/
def build_sliders {ν : Type} (bn : String → String)
    (cfg : String → Option (List (SliderCfg ν))) (model_free : List String)
    (flag_res : String) (module : String) (pp : Bool) : List (GrUpdate ν) :=
  let module := bn module
  let grs := build_sliders_grs cfg flag_res module pp
  if module ∈ model_free then
    grs ++ [{ visible := some false, value := some (.str "None") },
            { visible := some false }]
  else
    grs ++ [{ visible := some true }, { visible := some true }]

/-- Which branch the `run_annotator` closure of `register_run_annotator`
takes: the early `image is None` return, the `tss.enable()` remote path,
or the local in-process path. -/
inductive DispatchBranch where
  | noImage
  | remote
  | localPath
  deriving DecidableEq, Repr

/-- The branch structure at the top of the UI `run_annotator`
(`controlnet_ui_group.py`): early return on a missing image, then
`if tss.enable():` selects the remote pipeline, otherwise the local
in-process preprocessor runs. -/
def ui_dispatch (o : Tss.Opts) (co : Tss.CmdOpts) (image : Option Unit) :
    DispatchBranch :=
  match image with
  | none => .noImage
  | some _ => if Tss.enable o co then .remote else .localPath

/-- Python `pat in s` substring test, on character lists. -/
def startsWithChars : List Char → List Char → Bool
  | [], _ => true
  | _ :: _, [] => false
  | p :: ps, c :: cs => p = c && startsWithChars ps cs

def containsChars (pat : List Char) : List Char → Bool
  | [] => startsWithChars pat []
  | c :: cs => startsWithChars pat (c :: cs) || containsChars pat cs

/-- Python `pat in s` on strings. -/
def pyInStr (pat s : String) : Bool :=
  containsChars pat.data s.data

/-- `is_openpose` from the UI `run_annotator`: `"openpose" in module`. -/
def is_openpose (module : String) : Bool :=
  pyInStr "openpose" module

/-- The one callback value the local path ever passes:
`json_acceptor.accept` of the per-call `JsonAcceptor`. -/
inductive JsonCallback where
  | jsonAcceptorAccept
  deriving DecidableEq, Repr

/-- The argument record of the in-process call
`preprocessor(img, res=pres, thr_a=pthr_a, thr_b=pthr_b,
json_pose_callback=...)`.  No model-selection argument exists at this
call site. -/
structure PreprocCall (ν : Type) where
  res : ν
  thr_a : ν
  thr_b : ν
  json_pose_callback : Option JsonCallback
  deriving DecidableEq, Repr

/-- The local branch of the UI `run_annotator`, reduced to the arguments
it passes to the in-process preprocessor: the module is resolved by
`global_state.get_module_basename` (external, parameter `bn`); when
pixel-perfect is on, the resolution is recomputed by
`external_code.pixel_perfect_resolution` (external, its value passed as
`ppr`); the JSON side-channel callback is attached iff
`is_openpose(module)` holds for the resolved name, every other call
passing `None`. -/
def local_preproc_call {ν : Type} (bn : String → String) (module : String)
    (pres ppr pthr_a pthr_b : ν) (pp : Bool) : PreprocCall ν :=
  let m := bn module
  let pres := if pp then ppr else pres
  { res := pres, thr_a := pthr_a, thr_b := pthr_b,
    json_pose_callback :=
      if is_openpose m then some .jsonAcceptorAccept else none }

/-- The `gr.Dropdown.update(value=..., choices=...)` returned by
`refresh_all_models`. -/
structure DropUpdate where
  value : String
  choices : List String
  deriving DecidableEq, Repr

/-- `refresh_all_models` of `register_refresh_all_models`
(`controlnet_ui_group.py`).  On the remote path (`tss.enable()`):
`global_state.cn_models` is cleared, `tss.request_models()` is called (a
raised exception propagates, leaving the cleared state), the fetched
mapping is copied into `cn_models` via `update`, the selection is kept
when `dd in models` and reset to `"None"` otherwise, and the choices are
`list(global_state.cn_models.keys())`.  On the local path,
`global_state.update_cn_models()` (external to this repository) replaces
`cn_models` by `updated`, and selection/choices are computed from it the
same way.  Returns the dropdown update outcome together with the
resulting `cache` and `cn_models` states. -/
def refresh_all_models (o : Tss.Opts) (co : Tss.CmdOpts) (c : Tss.Cache)
    (out : Tss.HttpOutcome (Option Tss.CatData)) (updated : Tss.PyDict)
    (dd : String) : Except Tss.PyErr DropUpdate × Tss.Cache × Tss.PyDict :=
  if Tss.enable o co then
    match Tss.request_models c out with
    | .error e => (.error e, c, [])
    | .ok (models, c') =>
      let cn := Tss.pyUpdate [] models
      (.ok { value := if Tss.pyHasKey models dd then dd else "None",
             choices := cn.map Prod.fst }, c', cn)
  else
    (.ok { value := if Tss.pyHasKey updated dd then dd else "None",
           choices := updated.map Prod.fst }, c, updated)

end CnetUI

namespace Tss

/-- A poll outcome that does not raise inside the loop body: the GET
returned a response and, when the response is truthy, its body parsed. -/
def parsesOk (out : HttpOutcome TaskData) : Prop :=
  ∃ r, out = .ok r ∧ (r.ok = true → r.body ≠ none)

/-- A poll outcome that does not hit the terminal return: whenever it is a
truthy response with envelope code 200, the payload status is neither `10`
nor `-1`.  (Falsy responses and non-200 envelope codes satisfy this
vacuously: the loop continues on them.) -/
def nonTerminalPoll (out : HttpOutcome TaskData) : Prop :=
  ∀ r code data, out = .ok r → r.body = some (code, data) → code = 200 →
    ¬(data.status = 10 ∨ data.status = -1)

/-- Full success of the two-phase upload: the registration POST returned a
truthy response with envelope code 200, and the PUT to the pre-signed URL
returned a truthy response.  Its negation is "either phase fails". -/
def regPutSuccess (reg : HttpOutcome RegData)
    (put : String → Except Unit Bool) : Prop :=
  ∃ r code d, reg = .ok r ∧ r.ok = true ∧ r.body = some (code, d) ∧
    code = 200 ∧ put d.url = .ok true

/-- An upload outcome that produced a usable (truthy) storage key, i.e.
one that passes the `if not image_key or not mask_key` guard. -/
def keyedUpload (u : Except PyErr (Option String)) : Prop :=
  ∃ k, u = .ok (some k) ∧ k ≠ ""

/-- Concrete catalog feed for a successful models fetch: one ordinary
entry. -/
def feedC2 : CatData := ⟨[⟨"m", some "v"⟩]⟩

/-- A successful catalog fetch outcome carrying `feedC2`. -/
def outC2ok : HttpOutcome (Option CatData) :=
  .ok ⟨true, some (200, some feedC2)⟩

/-- The cache state after one successful models fetch of `feedC2`. -/
def cacheC2 : Cache := { models := some feedC2 }

/-- The model mapping derived from `feedC2`. -/
def mapC2 : PyDict := [("m", some "v"), ("None", none)]

/-- Concrete catalog feed whose raw display values already contain
`"None"` (followed by another entry). -/
def feedC5 : CatData := ⟨[⟨"None", some "x"⟩, ⟨"a", some "y"⟩]⟩

/-- A successful catalog fetch outcome carrying `feedC5`. -/
def outC5ok : HttpOutcome (Option CatData) :=
  .ok ⟨true, some (200, some feedC5)⟩

end Tss

/-! ### Helper lemmas about the Python-dict model -/

namespace Tss

theorem mem_pyInsert_self (d : PyDict) (k : String) (v : Option String) :
    (k, v) ∈ pyInsert d k v := by
  induction d with
  | nil => simp [pyInsert]
  | cons p rest ih =>
    obtain ⟨k', v'⟩ := p
    by_cases h : k' = k
    · simp [pyInsert, h]
    · simp only [pyInsert, if_neg h, List.mem_cons]
      exact Or.inr ih

theorem mem_pyInsert_ne {a : String} {w : Option String} (d : PyDict)
    (k : String) (v : Option String) (hne : a ≠ k) :
    (a, w) ∈ pyInsert d k v ↔ (a, w) ∈ d := by
  induction d with
  | nil => simp [pyInsert, Prod.ext_iff, hne]
  | cons p rest ih =>
    obtain ⟨k', v'⟩ := p
    simp only [pyInsert]
    by_cases h : k' = k
    · rw [if_pos h]
      simp only [List.mem_cons, Prod.ext_iff]
      have hak' : ¬a = k' := fun ha => hne (ha.trans h)
      simp [hak']
    · rw [if_neg h]
      simp only [List.mem_cons, ih]

theorem mem_pyInsert_cases {a : String} {w : Option String} {d : PyDict}
    {k : String} {v : Option String} (h : (a, w) ∈ pyInsert d k v) :
    (a, w) ∈ d ∨ a = k := by
  induction d with
  | nil =>
    simp only [pyInsert, List.mem_singleton, Prod.ext_iff] at h
    exact Or.inr h.1
  | cons p rest ih =>
    obtain ⟨k', v'⟩ := p
    simp only [pyInsert] at h
    by_cases hk : k' = k
    · rw [if_pos hk] at h
      simp only [List.mem_cons, Prod.ext_iff] at h
      rcases h with ⟨h1, _⟩ | hm
      · exact Or.inr (h1.trans hk)
      · exact Or.inl (List.mem_cons_of_mem _ hm)
    · rw [if_neg hk] at h
      simp only [List.mem_cons] at h
      rcases h with hp | hm
      · exact Or.inl (List.mem_cons.2 (Or.inl hp))
      · rcases ih hm with h1 | h2
        · exact Or.inl (List.mem_cons_of_mem _ h1)
        · exact Or.inr h2

theorem mem_keys_pyInsert {a : String} (d : PyDict) (k : String)
    (v : Option String) :
    a ∈ (pyInsert d k v).map Prod.fst ↔ a ∈ d.map Prod.fst ∨ a = k := by
  induction d with
  | nil => simp [pyInsert]
  | cons p rest ih =>
    obtain ⟨k', v'⟩ := p
    simp only [pyInsert]
    by_cases h : k' = k
    · rw [if_pos h]
      simp only [List.map_cons, List.mem_cons]
      constructor
      · rintro (ha | ha)
        · exact Or.inl (Or.inl ha)
        · exact Or.inl (Or.inr ha)
      · rintro ((ha | ha) | ha)
        · exact Or.inl ha
        · exact Or.inr ha
        · exact Or.inl (ha.trans h.symm)
    · rw [if_neg h]
      simp only [List.map_cons, List.mem_cons, ih]
      tauto

theorem keys_nodup_pyInsert {d : PyDict} (k : String) (v : Option String)
    (hd : (d.map Prod.fst).Nodup) : ((pyInsert d k v).map Prod.fst).Nodup := by
  induction d with
  | nil => simp [pyInsert]
  | cons p rest ih =>
    obtain ⟨k', v'⟩ := p
    simp only [List.map_cons, List.nodup_cons] at hd
    simp only [pyInsert]
    by_cases h : k' = k
    · rw [if_pos h]
      simp only [List.map_cons, List.nodup_cons]
      exact ⟨hd.1, hd.2⟩
    · rw [if_neg h]
      simp only [List.map_cons, List.nodup_cons]
      refine ⟨?_, ih hd.2⟩
      rw [mem_keys_pyInsert]
      rintro (hk | hk)
      · exact hd.1 hk
      · exact h hk

theorem mem_pyInsert_eq_val {d : PyDict} {k : String} {v w : Option String}
    (hd : (d.map Prod.fst).Nodup) (h : (k, w) ∈ pyInsert d k v) : w = v := by
  induction d with
  | nil =>
    simp only [pyInsert, List.mem_singleton, Prod.ext_iff] at h
    exact h.2
  | cons p rest ih =>
    obtain ⟨k', v'⟩ := p
    simp only [List.map_cons, List.nodup_cons] at hd
    simp only [pyInsert] at h
    by_cases hk : k' = k
    · rw [if_pos hk] at h
      simp only [List.mem_cons, Prod.ext_iff] at h
      rcases h with ⟨_, h2⟩ | hm
      · exact h2
      · exact absurd (List.mem_map_of_mem Prod.fst hm) (hk ▸ hd.1)
    · rw [if_neg hk] at h
      simp only [List.mem_cons, Prod.ext_iff] at h
      rcases h with ⟨h1, _⟩ | hm
      · exact absurd h1.symm hk
      · exact ih hd.2 hm

theorem pyInsert_of_not_mem {d : PyDict} {k : String} (v : Option String)
    (h : k ∉ d.map Prod.fst) : pyInsert d k v = d ++ [(k, v)] := by
  induction d with
  | nil => simp [pyInsert]
  | cons p rest ih =>
    obtain ⟨k', v'⟩ := p
    simp only [List.map_cons, List.mem_cons] at h
    push_neg at h
    simp only [pyInsert]
    rw [if_neg (fun hk : k' = k => h.1 hk.symm)]
    simp only [List.cons_append, List.cons.injEq, true_and]
    exact ih h.2

theorem keys_nodup_foldl_pyInsert (items : List CatItem) :
    ∀ d : PyDict, (d.map Prod.fst).Nodup →
      ((items.foldl (fun d it => pyInsert d it.display_value it.real_value) d).map
        Prod.fst).Nodup := by
  induction items with
  | nil => intro d hd; simpa using hd
  | cons it rest ih =>
    intro d hd
    simp only [List.foldl_cons]
    exact ih _ (keys_nodup_pyInsert _ _ hd)

theorem keys_nodup_dictOfItems (items : List CatItem) :
    ((dictOfItems items).map Prod.fst).Nodup :=
  keys_nodup_foldl_pyInsert items [] (by simp)

theorem keys_nodup_dropEmptySentinel {d : PyDict}
    (hd : (d.map Prod.fst).Nodup) :
    ((dropEmptySentinel d).map Prod.fst).Nodup := by
  unfold dropEmptySentinel
  by_cases h : pyHasKey d "无" = true
  · rw [if_pos h]
    exact ((List.filter_sublist d).map Prod.fst).nodup hd
  · rw [if_neg h]
    exact hd

theorem keys_nodup_buildModelDict (items : List CatItem) :
    ((buildModelDict items).map Prod.fst).Nodup :=
  keys_nodup_pyInsert _ _
    (keys_nodup_dropEmptySentinel (keys_nodup_dictOfItems items))

theorem mem_dropEmptySentinel {p : String × Option String} {d : PyDict}
    (h : p ∈ dropEmptySentinel d) : p ∈ d := by
  unfold dropEmptySentinel at h
  by_cases hk : pyHasKey d "无" = true
  · rw [if_pos hk] at h
    exact List.mem_of_mem_filter h
  · rwa [if_neg hk] at h

theorem not_sentinel_mem_dropEmptySentinel (d : PyDict)
    (v : Option String) : ("无", v) ∉ dropEmptySentinel d := by
  intro h
  unfold dropEmptySentinel at h
  by_cases hk : pyHasKey d "无" = true
  · rw [if_pos hk] at h
    have := List.of_mem_filter h
    simp at this
  · rw [if_neg hk] at h
    refine hk ?_
    simp only [pyHasKey, List.any_eq_true, decide_eq_true_eq]
    exact ⟨("无", v), h, rfl⟩

theorem mem_foldl_pyInsert_cases {a : String} {w : Option String}
    (items : List CatItem) :
    ∀ d : PyDict,
      (a, w) ∈ items.foldl (fun d it => pyInsert d it.display_value it.real_value) d →
      (a, w) ∈ d ∨ a ∈ items.map (·.display_value) := by
  induction items with
  | nil => intro d h; simpa using h
  | cons it rest ih =>
    intro d h
    simp only [List.foldl_cons] at h
    rcases ih _ h with h1 | h2
    · rcases mem_pyInsert_cases h1 with h3 | h4
      · exact Or.inl h3
      · exact Or.inr (by simp [h4])
    · exact Or.inr (List.mem_cons_of_mem _ h2)

theorem foldl_pyInsert_append (m : PyDict) :
    ∀ d : PyDict, (m.map Prod.fst).Nodup →
      (∀ a ∈ m.map Prod.fst, a ∉ d.map Prod.fst) →
      pyUpdate d m = d ++ m := by
  induction m with
  | nil => intro d _ _; simp [pyUpdate]
  | cons p rest ih =>
    intro d hnd hdisj
    obtain ⟨k, v⟩ := p
    simp only [List.map_cons, List.nodup_cons] at hnd
    have hk : k ∉ d.map Prod.fst := hdisj k (by simp)
    have step : pyUpdate d ((k, v) :: rest) = pyUpdate (d ++ [(k, v)]) rest := by
      simp only [pyUpdate, List.foldl_cons]
      rw [pyInsert_of_not_mem v hk]
    rw [step, ih (d ++ [(k, v)]) hnd.2]
    · simp
    · intro a ha
      simp only [List.map_append, List.map_cons, List.map_nil,
        List.mem_append, List.mem_singleton]
      rintro (h1 | h2)
      · exact hdisj a (List.mem_cons_of_mem _ ha) h1
      · exact hnd.1 (h2 ▸ ha)

theorem pyUpdate_nil_eq (m : PyDict) (hnd : (m.map Prod.fst).Nodup) :
    pyUpdate [] m = m := by
  have := foldl_pyInsert_append m [] hnd (by simp)
  simpa using this

theorem mem_buildModelDict_none (items : List CatItem) :
    ("None", none) ∈ buildModelDict items :=
  mem_pyInsert_self _ _ _

theorem not_mem_buildModelDict_sentinel (items : List CatItem)
    (v : Option String) : ("无", v) ∉ buildModelDict items := by
  intro h
  have hne : "无" ≠ "None" := by decide
  have := (mem_pyInsert_ne _ _ _ hne).1 h
  exact not_sentinel_mem_dropEmptySentinel _ v this

theorem buildModelDict_none_val {items : List CatItem} {v : Option String}
    (h : ("None", v) ∈ buildModelDict items) : v = none :=
  mem_pyInsert_eq_val
    (keys_nodup_dropEmptySentinel (keys_nodup_dictOfItems items)) h

theorem buildModelDict_getLast {items : List CatItem}
    (h : ∀ it ∈ items, it.display_value ≠ "None") :
    (buildModelDict items).getLast? = some ("None", none) := by
  have h1 : "None" ∉ (dictOfItems items).map Prod.fst := by
    intro hm
    obtain ⟨⟨a, w⟩, hp, hfst⟩ := List.mem_map.1 hm
    rcases mem_foldl_pyInsert_cases items [] hp with h2 | h2
    · simp at h2
    · obtain ⟨it, hit, hdisp⟩ := List.mem_map.1 h2
      exact h it hit (hdisp.trans hfst)
  have h2 : "None" ∉ (dropEmptySentinel (dictOfItems items)).map Prod.fst := by
    intro hm
    obtain ⟨p, hp, hfst⟩ := List.mem_map.1 hm
    exact h1 (hfst ▸ List.mem_map_of_mem Prod.fst (mem_dropEmptySentinel hp))
  unfold buildModelDict
  rw [pyInsert_of_not_mem _ h2, List.getLast?_concat]

theorem request_models_ok_shape {c : Cache} {out : HttpOutcome (Option CatData)}
    {m : PyDict} {c' : Cache} (h : request_models c out = .ok (m, c')) :
    ∃ d : CatData, m = buildModelDict d.items := by
  unfold request_models at h
  split at h
  · exact absurd h (by simp)
  · split at h
    · next d _ =>
      simp only [Except.ok.injEq, Prod.mk.injEq] at h
      exact ⟨d, h.1.symm⟩
    · split at h
      · next d _ =>
        simp only [Except.ok.injEq, Prod.mk.injEq] at h
        exact ⟨d, h.1.symm⟩
      · exact absurd h (by simp)

theorem classifyPoll_next {out : HttpOutcome TaskData} (hp : parsesOk out)
    (hnt : nonTerminalPoll out) : classifyPoll out = .next := by
  obtain ⟨r, rfl, hbody⟩ := hp
  simp only [classifyPoll]
  by_cases hok : r.ok = true
  · rw [if_pos hok]
    cases hb : r.body with
    | none => exact absurd hb (hbody hok)
    | some cd =>
      obtain ⟨code, data⟩ := cd
      by_cases hc : code = 200
      · have := hnt r code data rfl hb hc
        simp [hc, this]
      · simp [hc]
  · rw [if_neg hok]

theorem waite_task_continue (timeout t : Int) (out : HttpOutcome TaskData)
    (rest : List (Int × HttpOutcome TaskData)) (ht : t < timeout)
    (hp : parsesOk out) (hnt : nonTerminalPoll out) :
    waite_task timeout ((t, out) :: rest) = waite_task timeout rest := by
  have hstep : waite_task timeout ((t, out) :: rest) =
      if t < timeout then
        match classifyPoll out with
        | .raiseNet => .error .net
        | .raiseJson => .error .jsonDecode
        | .terminal data => .ok (some data)
        | .next => waite_task timeout rest
      else .ok none := rfl
  rw [hstep, if_pos ht, classifyPoll_next hp hnt]

theorem waite_task_all_nonterminal (timeout : Int)
    (trace : List (Int × HttpOutcome TaskData))
    (h : ∀ t out, (t, out) ∈ trace → t < timeout →
      parsesOk out ∧ nonTerminalPoll out) :
    waite_task timeout trace = .ok none := by
  induction trace with
  | nil => rfl
  | cons p rest ih =>
    obtain ⟨t, out⟩ := p
    by_cases ht : t < timeout
    · have hh := h t out (List.mem_cons_self _ _) ht
      rw [waite_task_continue timeout t out rest ht hh.1 hh.2]
      exact ih fun t' out' hm ht' => h t' out' (List.mem_cons_of_mem _ hm) ht'
    · unfold waite_task
      rw [if_neg ht]

end Tss

/-! ### Claim theorems -/

/-- C3: when a successful terminal poll payload has a non-empty
`hig_images` list, the URL selected for download is its first element,
whatever `images` holds; when `hig_images` is absent or empty and `images`
is non-empty, the first element of `images` is selected; when both are
absent or empty, no URL is selected. -/
theorem C3_artifact_url_selection (res : Tss.TaskData) :
    (∀ h hs, res.hig_images = some (h :: hs) →
      Tss.selected_url res = some h) ∧
    ((res.hig_images = none ∨ res.hig_images = some []) →
      ∀ i is, res.images = some (i :: is) → Tss.selected_url res = some i) ∧
    ((res.hig_images = none ∨ res.hig_images = some []) →
      (res.images = none ∨ res.images = some []) →
      Tss.selected_url res = none) := by
  refine ⟨?_, ?_, ?_⟩
  · intro h hs hh
    simp [Tss.selected_url, Tss.selected_images, Tss.pyOrList, hh]
  · rintro (hh | hh) i is hi <;>
      simp [Tss.selected_url, Tss.selected_images, Tss.pyOrList, hh, hi]
  · rintro (hh | hh) (hi | hi) <;>
      simp [Tss.selected_url, Tss.selected_images, Tss.pyOrList, hh, hi]

theorem C3_artifact_url_selection_witness :
    Tss.selected_url ⟨10, some ["h1", "h2"], some ["i1"]⟩ = some "h1" :=
  (C3_artifact_url_selection ⟨10, some ["h1", "h2"], some ["i1"]⟩).1
    "h1" ["h2"] rfl

/-- C6: `get_tushuashua_token` returns the empty string whenever no
credential is configured, and whenever the configured credential expires
in less than 60 seconds (`expire - now < 60`).  The embedded function is
total and pure: it consults no network and raises nothing. -/
theorem C6_token_expiry_empty (o : Tss.Opts) (now : Int) :
    (o.tu_token = none → Tss.get_tushuashua_token o now = "") ∧
    (∀ cred, o.tu_token = some cred → cred.expire - now < 60 →
      Tss.get_tushuashua_token o now = "") := by
  constructor
  · intro h
    simp [Tss.get_tushuashua_token, h]
  · intro cred h hexp
    have hgt : now > cred.expire - 60 := by omega
    simp [Tss.get_tushuashua_token, h, hgt]

theorem C6_token_expiry_empty_witness :
    Tss.get_tushuashua_token { tu_token := none } 0 = "" ∧
    Tss.get_tushuashua_token { tu_token := some ⟨"t", 100⟩ } 50 = "" :=
  ⟨(C6_token_expiry_empty _ 0).1 rfl,
   (C6_token_expiry_empty _ 50).2 ⟨"t", 100⟩ rfl (by norm_num)⟩

/-- C8: remote execution is enabled iff the remote flag is set and the
worker flag is not; whenever the worker flag is set, the UI dispatch never
takes the remote branch, whatever the remote flag and image are. -/
theorem C8_enable_iff_dispatch :
    (∀ (o : Tss.Opts) (co : Tss.CmdOpts),
      Tss.enable o co = true ↔
        (o.xz_ext_enable = true ∧ co.worker = false)) ∧
    (∀ (o : Tss.Opts) (co : Tss.CmdOpts) (img : Option Unit),
      co.worker = true →
        CnetUI.ui_dispatch o co img ≠ CnetUI.DispatchBranch.remote) := by
  constructor
  · intro o co
    simp [Tss.enable, Bool.and_eq_true, Bool.not_eq_true']
  · intro o co img hw
    cases img with
    | none => simp [CnetUI.ui_dispatch]
    | some u => simp [CnetUI.ui_dispatch, Tss.enable, hw]

theorem C8_enable_iff_dispatch_witness :
    CnetUI.ui_dispatch { xz_ext_enable := true } ⟨true⟩ (some ()) ≠
      CnetUI.DispatchBranch.remote :=
  C8_enable_iff_dispatch.2 { xz_ext_enable := true } ⟨true⟩ (some ()) rfl

/-- C9: in the local dispatch strategy the JSON side-channel callback is
passed to the in-process preprocessor iff the resolved module basename is
of the openpose kind (`"openpose" in module`); every other invocation
receives `None` for `json_pose_callback`. -/
theorem C9_json_callback_iff_openpose {ν : Type} (bn : String → String)
    (module : String) (pres ppr pthr_a pthr_b : ν) (pp : Bool) :
    (CnetUI.local_preproc_call bn module pres ppr pthr_a
        pthr_b pp).json_pose_callback.isSome
      = CnetUI.is_openpose (bn module) := by
  cases h : CnetUI.is_openpose (bn module) <;>
    simp [CnetUI.local_preproc_call, h]

/-- C1 counterexample: a job polled once, at elapsed time 0 (well inside
the 300-second window), whose poll raises a transport exception.  The
polled status never equals 10 or -1, yet `waite_task` propagates the
exception instead of returning no result — refuting "returns no result
(None) rather than raising an exception". -/
theorem C1_claim_counterexample :
    Tss.waite_task 300 [(0, Except.error ())] =
      Except.error Tss.PyErr.net := rfl

/-- C1 amended: provided every poll issued within the wait timeout yields
an HTTP response whose body parses (a transport failure or a body-parse
failure instead raises out of `waite_task`), a job whose polled status
never equals 10 or -1 within the timeout makes `waite_task` return no
result (`none`); and any single poll response carrying a non-terminal
status code (including falsy responses and non-200 envelope codes) causes
the loop to continue rather than end. -/
theorem C1_waite_task_nonterminal_amended :
    (∀ (timeout : Int) (trace : List (Int × Tss.HttpOutcome Tss.TaskData)),
      (∀ t out, (t, out) ∈ trace → t < timeout →
        Tss.parsesOk out ∧ Tss.nonTerminalPoll out) →
      Tss.waite_task timeout trace = Except.ok none) ∧
    (∀ (timeout t : Int) (out : Tss.HttpOutcome Tss.TaskData)
        (rest : List (Int × Tss.HttpOutcome Tss.TaskData)),
      t < timeout → Tss.parsesOk out → Tss.nonTerminalPoll out →
      Tss.waite_task timeout ((t, out) :: rest) =
        Tss.waite_task timeout rest) :=
  ⟨Tss.waite_task_all_nonterminal,
   fun timeout t out rest ht hp hnt =>
     Tss.waite_task_continue timeout t out rest ht hp hnt⟩

theorem C1_waite_task_nonterminal_amended_witness :
    Tss.waite_task 300
      [(0, Except.ok ⟨true, some (200, ⟨5, none, none⟩)⟩),
       (7, Except.ok ⟨false, none⟩)] = Except.ok none := by
  refine C1_waite_task_nonterminal_amended.1 300 _ ?_
  intro t out hm ht
  simp only [List.mem_cons, List.not_mem_nil, or_false, Prod.mk.injEq] at hm
  rcases hm with ⟨rfl, rfl⟩ | ⟨rfl, rfl⟩
  · refine ⟨⟨_, rfl, fun _ => by simp⟩, ?_⟩
    intro r code data hr hb hc
    cases hr
    cases hb
    simp
  · refine ⟨⟨_, rfl, fun hok => by simp at hok⟩, ?_⟩
    intro r code data hr hb hc
    cases hr
    cases hb

/-- C2 counterexample: a first models fetch succeeds (filling the cache),
then a second fetch fails at the transport level.  The claim says the
second call returns exactly the value derived from the cached response
(`mapC2`); instead `request_models` propagates the transport exception. -/
theorem C2_claim_counterexample :
    Tss.request_models {} Tss.outC2ok = Except.ok (Tss.mapC2, Tss.cacheC2) ∧
    Tss.request_models Tss.cacheC2 (Except.error ()) =
      Except.error Tss.PyErr.net :=
  ⟨rfl, rfl⟩

/-- C2 amended: when a catalog fetch completes without raising but yields
no usable data — HTTP-error response, non-200 envelope code, or
empty/falsy `data`, i.e. exactly when `request_tss` evaluates to a falsy
value — and a prior fetch of that category succeeded, the call returns
exactly the value derived from the cached response (and leaves the cache
unchanged); with no cached value it raises `'request tss failed'`.
Transport failures and body-parse failures instead raise out of the call
without consulting the cache. -/
theorem C2_catalog_fallback_amended
    (c : Tss.Cache) (outM outU : Tss.HttpOutcome (Option Tss.CatData))
    (xm : Option (Option Tss.CatData)) (xu : Option (Option Tss.CatData))
    (hM : Tss.request_tss outM = Except.ok xm) (hMj : xm.join = none)
    (hU : Tss.request_tss outU = Except.ok xu) (hUj : xu.join = none) :
    (∀ d, c.models = some d →
      Tss.request_models c outM = Except.ok (Tss.buildModelDict d.items, c)) ∧
    (c.models = none →
      Tss.request_models c outM = Except.error Tss.PyErr.requestFailed) ∧
    (∀ d, c.mudules = some d →
      Tss.request_mudules c outU =
        Except.ok (d.items.map (·.real_value), c)) ∧
    (c.mudules = none →
      Tss.request_mudules c outU = Except.error Tss.PyErr.requestFailed) := by
  refine ⟨?_, ?_, ?_, ?_⟩
  · intro d hd
    simp only [Tss.request_models, hM]
    rw [hMj, hd]
  · intro hd
    simp only [Tss.request_models, hM]
    rw [hMj, hd]
  · intro d hd
    simp only [Tss.request_mudules, hU]
    rw [hUj, hd]
  · intro hd
    simp only [Tss.request_mudules, hU]
    rw [hUj, hd]

theorem C2_catalog_fallback_amended_witness :
    Tss.request_models Tss.cacheC2 (Except.ok ⟨false, none⟩) =
      Except.ok (Tss.mapC2, Tss.cacheC2) :=
  (C2_catalog_fallback_amended Tss.cacheC2 (Except.ok ⟨false, none⟩)
      (Except.ok ⟨false, none⟩) none none rfl rfl rfl rfl).1
    Tss.feedC2 rfl

/-- C5 counterexample: a successful fetch whose raw feed already contains
a display entry `"None"` (followed by another entry).  The resulting
mapping does map `"None"` to the null sentinel, but the entry is not last:
`dict.update` overwrites the existing `"None"` entry in place, so the
final entry is `("a", some "y")` — refuting "added as the last entry
... whatever the raw catalog feed contained". -/
theorem C5_claim_counterexample :
    Tss.request_models {} Tss.outC5ok =
      Except.ok ([("None", none), ("a", some "y")],
        { models := some Tss.feedC5 }) ∧
    ([("None", (none : Option String)), ("a", some "y")].getLast? ≠
      some ("None", none)) :=
  ⟨rfl, by decide⟩

/-- C5 amended: every successful `request_models` call returns a mapping
that contains the key `"None"` bound to the null sentinel, never binds
`"None"` to anything else, and does not contain the raw empty-selection
sentinel key `'无'`; the `"None"` entry is appended last whenever the raw
feed contained no `"None"` display value (when it did, the pre-existing
entry keeps its position and only its value is overwritten to null). -/
theorem C5_model_mapping_amended {c : Tss.Cache}
    {out : Tss.HttpOutcome (Option Tss.CatData)} {m : Tss.PyDict}
    {c' : Tss.Cache} (h : Tss.request_models c out = Except.ok (m, c')) :
    ("None", (none : Option String)) ∈ m ∧
    (∀ v, ("无", v) ∉ m) ∧
    (∀ v, ("None", v) ∈ m → v = none) ∧
    ∃ d : Tss.CatData, m = Tss.buildModelDict d.items ∧
      ((∀ it ∈ d.items, it.display_value ≠ "None") →
        m.getLast? = some ("None", none)) := by
  obtain ⟨d, rfl⟩ := Tss.request_models_ok_shape h
  exact ⟨Tss.mem_buildModelDict_none _,
    fun v => Tss.not_mem_buildModelDict_sentinel _ v,
    fun v hv => Tss.buildModelDict_none_val hv,
    d, rfl, fun hnd => Tss.buildModelDict_getLast hnd⟩

theorem C5_model_mapping_amended_witness :
    ("None", (none : Option String)) ∈ Tss.mapC2 :=
  (@C5_model_mapping_amended ⟨none, none⟩ Tss.outC2ok Tss.mapC2
    Tss.cacheC2 rfl).1

/-- C4: whenever the resolved module basename is in the model-free set,
`build_sliders` ends its update list with the model-dropdown update
`gr.update(visible=False, value="None")` (followed by the hidden refresh
button), for every slider configuration, resolution flag, and
pixel-perfect setting.  `build_sliders` takes no model input, so this
holds regardless of the caller-supplied model value; the local
preprocessor invocation itself (`local_preproc_call`) has no
model-selection argument at all. -/
theorem C4_model_free_forces_none {ν : Type} (bn : String → String)
    (cfg : String → Option (List (CnetUI.SliderCfg ν)))
    (model_free : List String) (flag_res module : String) (pp : Bool)
    (h : bn module ∈ model_free) :
    ∃ gs, CnetUI.build_sliders bn cfg model_free flag_res module pp =
      gs ++ [{ visible := some false,
               value := some (CnetUI.GrVal.str "None") },
             { visible := some false }] := by
  refine ⟨CnetUI.build_sliders_grs cfg flag_res (bn module) pp, ?_⟩
  simp only [CnetUI.build_sliders]
  rw [if_pos h]

theorem C4_model_free_forces_none_witness :
    ∃ gs, CnetUI.build_sliders (fun s => s)
        (fun _ => (none : Option (List (CnetUI.SliderCfg Unit))))
        ["normal_map"] "res" "normal_map" false =
      gs ++ [{ visible := some false,
               value := some (CnetUI.GrVal.str "None") },
             { visible := some false }] :=
  C4_model_free_forces_none (fun s => s)
    (fun _ => (none : Option (List (CnetUI.SliderCfg Unit))))
    ["normal_map"] "res" "normal_map" false (by simp)

/-- C7: (1) if either phase of the two-phase upload fails — the
registration POST raises, returns a falsy response, an unparseable body,
or a non-200 envelope code, or the PUT raises or returns a falsy
response — then `upload_image_data` never produces a storage key; (2) if
either upload outcome carries no truthy storage key, the tss
`run_annotator` fails with an error for every possible submission, poll,
and download behaviour — in particular the job descriptor is never
submitted after a failed image or mask upload. -/
theorem C7_upload_failure_no_submit :
    (∀ (reg : Tss.HttpOutcome Tss.RegData) (put : String → Except Unit Bool),
      ¬Tss.regPutSuccess reg put →
      ∀ k, Tss.upload_image_data reg put ≠ Except.ok (some k)) ∧
    (∀ ik mk : Except Tss.PyErr (Option String),
      (¬Tss.keyedUpload ik ∨ ¬Tss.keyedUpload mk) →
      ∀ (submit : Tss.HttpOutcome Tss.SubmitData)
        (trace : List (Int × Tss.HttpOutcome Tss.TaskData))
        (download : String → Except Unit Bool) (urlBase : String → String),
        ∃ e, Tss.run_annotator ik mk submit trace download urlBase =
          Except.error e) := by
  constructor
  · intro reg put hns k heq
    cases reg with
    | error e => simp [Tss.upload_image_data] at heq
    | ok r =>
      simp only [Tss.upload_image_data] at heq
      by_cases hok : r.ok = true
      · rw [if_pos hok] at heq
        cases hb : r.body with
        | none => rw [hb] at heq; simp at heq
        | some cd =>
          obtain ⟨code, d⟩ := cd
          rw [hb] at heq
          by_cases hc : code = 200
          · simp only [hc, if_pos] at heq
            cases hput : put d.url with
            | error e => simp [hput] at heq
            | ok b =>
              cases b with
              | true => exact hns ⟨r, code, d, rfl, hok, hb, hc, hput⟩
              | false => simp [hput] at heq
          · simp [hc] at heq
      · rw [if_neg hok] at heq
        simp at heq
  · intro ik mk hfail submit trace download urlBase
    cases ik with
    | error e => exact ⟨e, rfl⟩
    | ok iko =>
      cases mk with
      | error e => exact ⟨e, rfl⟩
      | ok mko =>
        have hguard : (!Tss.pyTruthyKey iko || !Tss.pyTruthyKey mko) = true := by
          rcases hfail with hf | hf
          · have : Tss.pyTruthyKey iko = false := by
              cases hiko : iko with
              | none => simp [Tss.pyTruthyKey]
              | some s =>
                by_cases hs : s = ""
                · simp [Tss.pyTruthyKey, hs]
                · exact absurd ⟨s, by rw [hiko], hs⟩ hf
            simp [this]
          · have : Tss.pyTruthyKey mko = false := by
              cases hmko : mko with
              | none => simp [Tss.pyTruthyKey]
              | some s =>
                by_cases hs : s = ""
                · simp [Tss.pyTruthyKey, hs]
                · exact absurd ⟨s, by rw [hmko], hs⟩ hf
            simp [this]
        refine ⟨Tss.PyErr.uploadFailed, ?_⟩
        simp only [Tss.run_annotator]
        rw [if_pos hguard]

theorem C7_upload_failure_no_submit_witness :
    ∃ e, Tss.run_annotator (Except.ok none) (Except.ok none)
        (Except.ok ⟨true, some (200, ⟨"tid"⟩)⟩) []
        (fun _ => Except.ok true) (fun s => s) = Except.error e :=
  C7_upload_failure_no_submit.2 (Except.ok none) (Except.ok none)
    (Or.inl fun hku => by obtain ⟨k, hk, _⟩ := hku; simp at hk)
    (Except.ok ⟨true, some (200, ⟨"tid"⟩)⟩) [] (fun _ => Except.ok true)
    (fun s => s)

/-- C10: whenever `refresh_all_models` completes with a dropdown update —
on the remote path as well as on the local path — the selection equals
the previously selected value when that value is a key of the refreshed
model mapping (the resulting `cn_models` state) and `"None"` otherwise,
and the offered choices are exactly the keys of the refreshed mapping. -/
theorem C10_refresh_selection_choices (o : Tss.Opts) (co : Tss.CmdOpts)
    (c : Tss.Cache) (out : Tss.HttpOutcome (Option Tss.CatData))
    (updated : Tss.PyDict) (dd : String) (u : CnetUI.DropUpdate)
    (c' : Tss.Cache) (cn : Tss.PyDict)
    (h : CnetUI.refresh_all_models o co c out updated dd =
      (Except.ok u, c', cn)) :
    u.value = (if Tss.pyHasKey cn dd then dd else "None") ∧
    u.choices = cn.map Prod.fst := by
  unfold CnetUI.refresh_all_models at h
  by_cases he : Tss.enable o co = true
  · rw [if_pos he] at h
    cases hreq : Tss.request_models c out with
    | error e => rw [hreq] at h; simp at h
    | ok p =>
      obtain ⟨models, c2⟩ := p
      rw [hreq] at h
      obtain ⟨d, hd⟩ := Tss.request_models_ok_shape hreq
      have hupd : Tss.pyUpdate [] models = models :=
        Tss.pyUpdate_nil_eq models (hd ▸ Tss.keys_nodup_buildModelDict d.items)
      simp only [hupd, Prod.mk.injEq, Except.ok.injEq] at h
      obtain ⟨hu, _, hcn⟩ := h
      subst hcn
      rw [← hu]
      exact ⟨rfl, rfl⟩
  · rw [if_neg he] at h
    simp only [Prod.mk.injEq, Except.ok.injEq] at h
    obtain ⟨hu, _, hcn⟩ := h
    subst hcn
    rw [← hu]
    exact ⟨rfl, rfl⟩

theorem C10_refresh_selection_choices_witness :
    (CnetUI.DropUpdate.mk "a" ["a"]).value =
      (if Tss.pyHasKey [("a", some "x")] "a" then "a" else "None") ∧
    (CnetUI.DropUpdate.mk "a" ["a"]).choices =
      ([("a", some "x")] : Tss.PyDict).map Prod.fst :=
  C10_refresh_selection_choices {} ⟨false⟩ {} (Except.error ())
    [("a", some "x")] "a" ⟨"a", ["a"]⟩ {} [("a", some "x")] rfl

